import Mathlib

/-!
Shallow embedding of the session verifier cache
(src/finality-aleph/src/sync/substrate/verification/cache.rs) and of the
pink-scorpion pallet (src/pallets/pink-scorpion/src/lib.rs).

Modelling conventions:
* `SessionId` and `BlockNumber` are `u32` newtypes in the source, used only
  through comparisons, `saturating_add`, `saturating_sub` and `+ 1`; they are
  embedded as `Nat` (`Nat` addition never overflows, matching `saturating_add`
  on the representable range, and `Nat` subtraction is truncated, which is
  exactly `saturating_sub`).
* `HashMap<SessionId, CachedData>` is embedded as an association list
  `List (Nat × CachedData V A)`; `HashMap::get`/`entry` lookups become
  `map_lookup`, `retain` becomes `List.filter`, and `Vacant(vacant).insert`
  becomes consing the new pair (the key is absent at that point).
* The collaborator traits `AuthorityProvider` and `FinalizationInfo` are
  embedded as structures of functions; since their answers may change between
  calls (chain state advances), each cache call receives the collaborators as
  per-call arguments, while the immutable configuration (`session_info`,
  `cache_size`, `lower_bound`, the entry table and `genesis_header`) lives in
  the `VerifierCache` structure as in the source.
* The opaque infallible conversion `SessionAuthorityData → SessionVerifier`
  (the `.into()` in `download_data`) is a parameter `into : D → V`.
* `SessionBoundaryInfo` is external to this repository (only its interface is
  used here), so it is a structure of two arbitrary functions.
-/

/-- External collaborator interface: session boundary arithmetic.
`session_id_from_block_num` maps a block number to its session id and
`first_block_of_session` maps a session id to its first block number. -/
structure SessionBoundaryInfo where
  session_id_from_block_num : Nat → Nat
  first_block_of_session : Nat → Nat

/-- External collaborator interface: raw authority data for sessions.
`D` is the type of raw session authority data, `A` the type of Aura ids. -/
structure AuthorityProvider (D A : Type) where
  authority_data : Nat → Option D
  next_authority_data : Nat → Option D
  aura_authorities : Nat → Option (List A)
  next_aura_authorities : Nat → Option (List A)

/-- External collaborator interface: the currently finalized block number. -/
structure FinalizationInfo where
  finalized_number : Nat

/-- Ways in which a justification can fail verification (`CacheError`). -/
inductive CacheError where
  | UnknownAuthorities (session : Nat)
  | UnknownAuraAuthorities (session : Nat)
  | SessionTooOld (session : Nat) (lower_bound : Nat)
  | SessionInFuture (session : Nat) (upper_bound : Nat)
  | BadGenesisHeader
deriving DecidableEq, Repr

/-- One cached entry: the session verifier (here: the converted authority
data, of type `V`) and the Aura authority list. -/
structure CachedData (V A : Type) where
  session_verifier : V
  aura_authorities : List A
deriving DecidableEq, Repr

/-- Lookup in the association list embedding of the `HashMap`. -/
def map_lookup {β : Type} (k : Nat) : List (Nat × β) → Option β
  | [] => none
  | p :: rest => if p.1 = k then some p.2 else map_lookup k rest

/-- The cache state: entry table, immutable configuration and the retention
lower bound.  The stateful collaborators (`finalization_info`,
`authority_provider`) of the source structure are supplied per call. -/
structure VerifierCache (V A H : Type) where
  cached_data : List (Nat × CachedData V A)
  session_info : SessionBoundaryInfo
  cache_size : Nat
  lower_bound : Nat
  genesis_header : H

/-- `VerifierCache::new`: empty table, `lower_bound = 0`. -/
def VerifierCache.new {V A H : Type} (session_info : SessionBoundaryInfo)
    (cache_size : Nat) (genesis_header : H) : VerifierCache V A H :=
  { cached_data := []
    session_info := session_info
    cache_size := cache_size
    lower_bound := 0
    genesis_header := genesis_header }

/-- `download_data`: build the entry for `session_id` from the authority
provider.  Session 0 reads `authority_data 0` and `aura_authorities 0`;
session `m+1` reads `next_authority_data` and `next_aura_authorities` at the
first block of session `m`.  Missing data yields `UnknownAuthorities`
respectively `UnknownAuraAuthorities`, parameterized by `session_id`. -/
def download_data {D V A : Type} (into : D → V) (ap : AuthorityProvider D A)
    (session_id : Nat) (session_info : SessionBoundaryInfo) :
    Except CacheError (CachedData V A) :=
  match session_id with
  | 0 =>
    match ap.authority_data 0 with
    | none => .error (.UnknownAuthorities 0)
    | some ad =>
      match ap.aura_authorities 0 with
      | none => .error (.UnknownAuraAuthorities 0)
      | some aa => .ok ⟨into ad, aa⟩
  | m + 1 =>
    let prev_first := session_info.first_block_of_session m
    match ap.next_authority_data prev_first with
    | none => .error (.UnknownAuthorities (m + 1))
    | some ad =>
      match ap.next_aura_authorities prev_first with
      | none => .error (.UnknownAuraAuthorities (m + 1))
      | some aa => .ok ⟨into ad, aa⟩

/-- `VerifierCache::try_prune`: if `session_id ≥ lower_bound + cache_size`
(`saturating_add`), set `lower_bound` to `session_id - cache_size + 1`
(`saturating_sub`, which is `Nat` subtraction) and retain only the entries
whose key is at least that new lower bound. -/
def VerifierCache.try_prune {V A H : Type} (c : VerifierCache V A H)
    (session_id : Nat) : VerifierCache V A H :=
  if c.lower_bound + c.cache_size ≤ session_id then
    let new_lower_bound := session_id - c.cache_size + 1
    { c with
      cached_data := c.cached_data.filter (fun p => decide (new_lower_bound ≤ p.1))
      lower_bound := new_lower_bound }
  else c

/-- `VerifierCache::get_data`: resolve the session id of `number`, check the
lower bound, recompute and check the upper bound, prune, then serve the
cached entry or download and insert it.  Returns the result together with
the cache state after the call. -/
def VerifierCache.get_data {D V A H : Type} (into : D → V)
    (ap : AuthorityProvider D A) (fi : FinalizationInfo)
    (c : VerifierCache V A H) (number : Nat) :
    Except CacheError (CachedData V A) × VerifierCache V A H :=
  let session_id := c.session_info.session_id_from_block_num number
  if session_id < c.lower_bound then
    (.error (.SessionTooOld session_id c.lower_bound), c)
  else
    let upper_bound :=
      c.session_info.session_id_from_block_num fi.finalized_number + 1
    if upper_bound < session_id then
      (.error (.SessionInFuture session_id upper_bound), c)
    else
      let c1 := c.try_prune session_id
      match map_lookup session_id c1.cached_data with
      | some d => (.ok d, c1)
      | none =>
        match download_data into ap session_id c1.session_info with
        | .ok d => (.ok d, { c1 with cached_data := (session_id, d) :: c1.cached_data })
        | .error e => (.error e, c1)

/-- `VerifierCache::get`: the session verifier for the block number. -/
def VerifierCache.get {D V A H : Type} (into : D → V)
    (ap : AuthorityProvider D A) (fi : FinalizationInfo)
    (c : VerifierCache V A H) (number : Nat) :
    Except CacheError V × VerifierCache V A H :=
  match c.get_data into ap fi number with
  | (.ok d, c1) => (.ok d.session_verifier, c1)
  | (.error e, c1) => (.error e, c1)

/-- `VerifierCache::get_aura_authorities`: the Aura authority list for the
block number (to be called with the parent of the verified block). -/
def VerifierCache.get_aura_authorities {D V A H : Type} (into : D → V)
    (ap : AuthorityProvider D A) (fi : FinalizationInfo)
    (c : VerifierCache V A H) (number : Nat) :
    Except CacheError (List A) × VerifierCache V A H :=
  match c.get_data into ap fi number with
  | (.ok d, c1) => (.ok d.aura_authorities, c1)
  | (.error e, c1) => (.error e, c1)

/-- One public cache call together with the collaborator answers current at
the moment of that call. -/
inductive CacheCall (D A : Type) where
  | get (ap : AuthorityProvider D A) (fi : FinalizationInfo) (number : Nat)
  | get_aura_authorities (ap : AuthorityProvider D A) (fi : FinalizationInfo) (number : Nat)

/-- The block number a call passes in. -/
def CacheCall.number {D A : Type} : CacheCall D A → Nat
  | .get _ _ n => n
  | .get_aura_authorities _ _ n => n

/-- The authority provider answering during a call. -/
def CacheCall.provider {D A : Type} : CacheCall D A → AuthorityProvider D A
  | .get ap _ _ => ap
  | .get_aura_authorities ap _ _ => ap

/-- The finalization collaborator answering during a call. -/
def CacheCall.fin {D A : Type} : CacheCall D A → FinalizationInfo
  | .get _ fi _ => fi
  | .get_aura_authorities _ fi _ => fi

/-- The cache state after one public call. -/
def apply_call {D V A H : Type} (into : D → V) (c : VerifierCache V A H) :
    CacheCall D A → VerifierCache V A H
  | .get ap fi n => (c.get into ap fi n).2
  | .get_aura_authorities ap fi n => (c.get_aura_authorities into ap fi n).2

/-- The error a public call returns, if any. -/
def call_error {D V A H : Type} (into : D → V) (c : VerifierCache V A H) :
    CacheCall D A → Option CacheError
  | .get ap fi n =>
    match (c.get into ap fi n).1 with
    | .error e => some e
    | .ok _ => none
  | .get_aura_authorities ap fi n =>
    match (c.get_aura_authorities into ap fi n).1 with
    | .error e => some e
    | .ok _ => none

/-- The cache state after a sequence of public calls. -/
def run_calls {D V A H : Type} (into : D → V) (c : VerifierCache V A H) :
    List (CacheCall D A) → VerifierCache V A H
  | [] => c
  | call :: rest => run_calls into (apply_call into c call) rest

/-- Session id a cache resolves a block number to. -/
def session_of {V A H : Type} (c : VerifierCache V A H) (number : Nat) : Nat :=
  c.session_info.session_id_from_block_num number

/-- The upper bound `get_data` recomputes at each call. -/
def upper_bound_of {V A H : Type} (c : VerifierCache V A H)
    (fi : FinalizationInfo) : Nat :=
  c.session_info.session_id_from_block_num fi.finalized_number + 1

/-!
Embedding of the pink-scorpion pallet
(src/pallets/pink-scorpion/src/lib.rs).  Bytes are embedded as `Nat`, byte
vectors as `List Nat`, the `StorageMap` as a function from account ids to
`Option FSEvent`, and a dispatchable as a function returning the dispatch
result, the storage map after the call and the deposited events.  The calls
are modelled at a signed origin: `sender` is the account `ensure_signed`
returned.
-/

/-- The pallet `Error<T>` variants. -/
inductive PalletError where
  | CreationTimeTooLong
  | FilePathTooLong
  | EventKeyTooLong
deriving DecidableEq, Repr

/-- `FSEvent`: fixed-size byte arrays `[u8; 64]`, `[u8; 256]`, `[u8; 128]`
embedded as lists (of the corresponding length once built). -/
structure FSEvent where
  creationtime : List Nat
  filepath : List Nat
  eventkey : List Nat
deriving DecidableEq, Repr

/-- The pallet `Event<T>` variants. -/
inductive PalletEvent (Acc : Type) where
  | FileDisassembled (who : Acc) (event : FSEvent)
  | FileReassembled (who : Acc) (event : FSEvent)
deriving DecidableEq, Repr

/-- `let mut arr = [0u8; n]; arr[..data.len()].copy_from_slice(&data)`:
the data right-padded with zero bytes to length `n` (callers establish
`data.length ≤ n`). -/
def copy_into_zeroed (data : List Nat) (n : Nat) : List Nat :=
  data ++ List.replicate (n - data.length) 0

/-- The `FSEvent` both calls build from the raw inputs. -/
def build_fs_event (creation_time file_path event_key : List Nat) : FSEvent :=
  { creationtime := copy_into_zeroed creation_time 64
    filepath := copy_into_zeroed file_path 256
    eventkey := copy_into_zeroed event_key 128 }

/-- `Pallet::disassembled` at a signed origin: length checks in source
order, then build the event, insert it for the sender (overwriting) and
deposit `FileDisassembled`.  Returns the dispatch result, the storage map
after the call and the deposited events. -/
def disassembled {Acc : Type} [DecidableEq Acc] (store : Acc → Option FSEvent)
    (sender : Acc) (creation_time file_path event_key : List Nat) :
    Except PalletError Unit × (Acc → Option FSEvent) × List (PalletEvent Acc) :=
  if creation_time.length ≤ 64 then
    if file_path.length ≤ 256 then
      if event_key.length ≤ 128 then
        let event := build_fs_event creation_time file_path event_key
        (.ok (), fun a => if a = sender then some event else store a,
          [.FileDisassembled sender event])
      else (.error .EventKeyTooLong, store, [])
    else (.error .FilePathTooLong, store, [])
  else (.error .CreationTimeTooLong, store, [])

/-- `Pallet::reassembled` at a signed origin: identical to `disassembled`
except that it deposits `FileReassembled`. -/
def reassembled {Acc : Type} [DecidableEq Acc] (store : Acc → Option FSEvent)
    (sender : Acc) (creation_time file_path event_key : List Nat) :
    Except PalletError Unit × (Acc → Option FSEvent) × List (PalletEvent Acc) :=
  if creation_time.length ≤ 64 then
    if file_path.length ≤ 256 then
      if event_key.length ≤ 128 then
        let event := build_fs_event creation_time file_path event_key
        (.ok (), fun a => if a = sender then some event else store a,
          [.FileReassembled sender event])
      else (.error .EventKeyTooLong, store, [])
    else (.error .FilePathTooLong, store, [])
  else (.error .CreationTimeTooLong, store, [])

/-!
Concrete instances, used to evaluate the development on explicit inputs
(session period 30 and window size 3, as in the source tests).
-/

/-- Boundary arithmetic of a session period of 30 blocks. -/
def infoW : SessionBoundaryInfo :=
  { session_id_from_block_num := fun n => n / 30
    first_block_of_session := fun s => 30 * s }

/-- A provider with data for every session. -/
def apFull : AuthorityProvider Nat Nat :=
  { authority_data := fun b => some (100 + b)
    next_authority_data := fun b => some (200 + b)
    aura_authorities := fun b => some [b]
    next_aura_authorities := fun b => some [b + 1] }

/-- A provider whose next-session data is always absent. -/
def apMissing : AuthorityProvider Nat Nat :=
  { authority_data := fun b => some (100 + b)
    next_authority_data := fun _ => none
    aura_authorities := fun b => some [b]
    next_aura_authorities := fun _ => none }

/-- A freshly constructed cache with window size 3. -/
def cacheW : VerifierCache Nat Nat Unit := VerifierCache.new infoW 3 ()

/-- A cache holding an entry for session 0, window size 3, lower bound 0. -/
def cacheC : VerifierCache Nat Nat Unit :=
  { cached_data := [(0, ⟨100, [0]⟩)]
    session_info := infoW
    cache_size := 3
    lower_bound := 0
    genesis_header := () }

/-- An empty cache whose lower bound has advanced to 2, window size 3. -/
def cacheL : VerifierCache Nat Nat Unit :=
  { cached_data := []
    session_info := infoW
    cache_size := 3
    lower_bound := 2
    genesis_header := () }

/-!
Helper lemmas about the table lookup, the retention pass and the branches of
`get_data`.
-/

theorem map_lookup_filter_ge {β : Type} (nlb k : Nat) (l : List (Nat × β)) :
    map_lookup k (l.filter fun p => decide (nlb ≤ p.1)) =
      if nlb ≤ k then map_lookup k l else none := by
  induction l with
  | nil => simp [map_lookup]
  | cons p rest ih =>
    rw [List.filter_cons]
    by_cases hk : p.1 = k
    · subst hk
      by_cases hp : nlb ≤ p.1
      · simp [hp, map_lookup]
      · simp [hp, map_lookup, ih]
    · by_cases hp : nlb ≤ p.1
      · simp [hp, map_lookup, hk, ih]
      · simp [hp, map_lookup, hk, ih]

theorem try_prune_of_lt {V A H : Type} (c : VerifierCache V A H) (s : Nat)
    (h : s < c.lower_bound + c.cache_size) : c.try_prune s = c := by
  unfold VerifierCache.try_prune
  rw [if_neg (by omega)]

theorem try_prune_of_ge {V A H : Type} (c : VerifierCache V A H) (s : Nat)
    (h : c.lower_bound + c.cache_size ≤ s) :
    c.try_prune s =
      { c with
        cached_data :=
          c.cached_data.filter (fun p => decide (s - c.cache_size + 1 ≤ p.1))
        lower_bound := s - c.cache_size + 1 } := by
  unfold VerifierCache.try_prune
  rw [if_pos h]

theorem try_prune_session_info {V A H : Type} (c : VerifierCache V A H)
    (s : Nat) : (c.try_prune s).session_info = c.session_info := by
  unfold VerifierCache.try_prune
  split <;> rfl

theorem try_prune_cache_size {V A H : Type} (c : VerifierCache V A H)
    (s : Nat) : (c.try_prune s).cache_size = c.cache_size := by
  unfold VerifierCache.try_prune
  split <;> rfl

theorem lower_bound_le_try_prune {V A H : Type} (c : VerifierCache V A H)
    (s : Nat) : c.lower_bound ≤ (c.try_prune s).lower_bound := by
  unfold VerifierCache.try_prune
  split
  · simp
    omega
  · exact Nat.le_refl _

theorem get_data_too_old {D V A H : Type} (into : D → V)
    (ap : AuthorityProvider D A) (fi : FinalizationInfo)
    (c : VerifierCache V A H) (n : Nat)
    (h : session_of c n < c.lower_bound) :
    c.get_data into ap fi n =
      (.error (.SessionTooOld (session_of c n) c.lower_bound), c) := by
  simp only [session_of] at h ⊢
  simp only [VerifierCache.get_data]
  rw [if_pos h]

theorem get_data_in_future {D V A H : Type} (into : D → V)
    (ap : AuthorityProvider D A) (fi : FinalizationInfo)
    (c : VerifierCache V A H) (n : Nat)
    (h1 : ¬ session_of c n < c.lower_bound)
    (h2 : upper_bound_of c fi < session_of c n) :
    c.get_data into ap fi n =
      (.error (.SessionInFuture (session_of c n) (upper_bound_of c fi)), c) := by
  simp only [session_of, upper_bound_of] at h1 h2 ⊢
  simp only [VerifierCache.get_data]
  rw [if_neg h1, if_pos h2]

theorem get_data_hit {D V A H : Type} (into : D → V)
    (ap : AuthorityProvider D A) (fi : FinalizationInfo)
    (c : VerifierCache V A H) (n : Nat) (d : CachedData V A)
    (h1 : ¬ session_of c n < c.lower_bound)
    (h2 : ¬ upper_bound_of c fi < session_of c n)
    (h3 : map_lookup (session_of c n) (c.try_prune (session_of c n)).cached_data = some d) :
    c.get_data into ap fi n = (.ok d, c.try_prune (session_of c n)) := by
  simp only [session_of, upper_bound_of] at h1 h2 h3 ⊢
  simp only [VerifierCache.get_data]
  rw [if_neg h1, if_neg h2, h3]

theorem get_data_miss_ok {D V A H : Type} (into : D → V)
    (ap : AuthorityProvider D A) (fi : FinalizationInfo)
    (c : VerifierCache V A H) (n : Nat) (d : CachedData V A)
    (h1 : ¬ session_of c n < c.lower_bound)
    (h2 : ¬ upper_bound_of c fi < session_of c n)
    (h3 : map_lookup (session_of c n) (c.try_prune (session_of c n)).cached_data = none)
    (h4 : download_data into ap (session_of c n)
      (c.try_prune (session_of c n)).session_info = .ok d) :
    c.get_data into ap fi n =
      (.ok d,
        { c.try_prune (session_of c n) with
          cached_data :=
            (session_of c n, d) :: (c.try_prune (session_of c n)).cached_data }) := by
  simp only [session_of, upper_bound_of] at h1 h2 h3 h4 ⊢
  simp only [VerifierCache.get_data]
  rw [if_neg h1, if_neg h2, h3, h4]

theorem get_data_miss_err {D V A H : Type} (into : D → V)
    (ap : AuthorityProvider D A) (fi : FinalizationInfo)
    (c : VerifierCache V A H) (n : Nat) (e : CacheError)
    (h1 : ¬ session_of c n < c.lower_bound)
    (h2 : ¬ upper_bound_of c fi < session_of c n)
    (h3 : map_lookup (session_of c n) (c.try_prune (session_of c n)).cached_data = none)
    (h4 : download_data into ap (session_of c n)
      (c.try_prune (session_of c n)).session_info = .error e) :
    c.get_data into ap fi n = (.error e, c.try_prune (session_of c n)) := by
  simp only [session_of, upper_bound_of] at h1 h2 h3 h4 ⊢
  simp only [VerifierCache.get_data]
  rw [if_neg h1, if_neg h2, h3, h4]

theorem get_snd_eq {D V A H : Type} (into : D → V) (ap : AuthorityProvider D A)
    (fi : FinalizationInfo) (c : VerifierCache V A H) (n : Nat) :
    (c.get into ap fi n).2 = (c.get_data into ap fi n).2 := by
  unfold VerifierCache.get
  rcases c.get_data into ap fi n with ⟨r, c1⟩
  cases r <;> rfl

theorem aura_snd_eq {D V A H : Type} (into : D → V) (ap : AuthorityProvider D A)
    (fi : FinalizationInfo) (c : VerifierCache V A H) (n : Nat) :
    (c.get_aura_authorities into ap fi n).2 = (c.get_data into ap fi n).2 := by
  unfold VerifierCache.get_aura_authorities
  rcases c.get_data into ap fi n with ⟨r, c1⟩
  cases r <;> rfl

theorem get_error_iff {D V A H : Type} (into : D → V) (ap : AuthorityProvider D A)
    (fi : FinalizationInfo) (c : VerifierCache V A H) (n : Nat) (e : CacheError) :
    (c.get into ap fi n).1 = .error e ↔ (c.get_data into ap fi n).1 = .error e := by
  unfold VerifierCache.get
  rcases c.get_data into ap fi n with ⟨r, c1⟩
  cases r <;> simp

theorem aura_error_iff {D V A H : Type} (into : D → V) (ap : AuthorityProvider D A)
    (fi : FinalizationInfo) (c : VerifierCache V A H) (n : Nat) (e : CacheError) :
    (c.get_aura_authorities into ap fi n).1 = .error e ↔
      (c.get_data into ap fi n).1 = .error e := by
  unfold VerifierCache.get_aura_authorities
  rcases c.get_data into ap fi n with ⟨r, c1⟩
  cases r <;> simp

theorem apply_call_eq {D V A H : Type} (into : D → V) (c : VerifierCache V A H)
    (call : CacheCall D A) :
    apply_call into c call =
      (c.get_data into call.provider call.fin call.number).2 := by
  cases call with
  | get ap fi n => exact get_snd_eq into ap fi c n
  | get_aura_authorities ap fi n => exact aura_snd_eq into ap fi c n

theorem call_error_eq {D V A H : Type} (into : D → V) (c : VerifierCache V A H)
    (call : CacheCall D A) (e : CacheError) :
    call_error into c call = some e ↔
      (c.get_data into call.provider call.fin call.number).1 = .error e := by
  cases call with
  | get ap fi n =>
    simp only [call_error, CacheCall.provider, CacheCall.fin, CacheCall.number]
    rw [← get_error_iff into ap fi c n e]
    cases h : (c.get into ap fi n).1 with
    | error e2 => simp
    | ok v => simp
  | get_aura_authorities ap fi n =>
    simp only [call_error, CacheCall.provider, CacheCall.fin, CacheCall.number]
    rw [← aura_error_iff into ap fi c n e]
    cases h : (c.get_aura_authorities into ap fi n).1 with
    | error e2 => simp
    | ok v => simp

theorem download_data_error_shape {D V A : Type} (into : D → V)
    (ap : AuthorityProvider D A) (sid : Nat) (si : SessionBoundaryInfo)
    (e : CacheError) (h : download_data into ap sid si = .error e) :
    e = .UnknownAuthorities sid ∨ e = .UnknownAuraAuthorities sid := by
  cases sid with
  | zero =>
    simp only [download_data] at h
    cases h0 : ap.authority_data 0 <;> rw [h0] at h
    · simp at h
      exact Or.inl h.symm
    · cases h1 : ap.aura_authorities 0 <;> rw [h1] at h
      · simp at h
        exact Or.inr h.symm
      · simp at h
  | succ m =>
    simp only [download_data] at h
    cases h0 : ap.next_authority_data (si.first_block_of_session m) <;> rw [h0] at h
    · simp at h
      exact Or.inl h.symm
    · cases h1 : ap.next_aura_authorities (si.first_block_of_session m) <;> rw [h1] at h
      · simp at h
        exact Or.inr h.symm
      · simp at h

theorem get_data_bound_error_state {D V A H : Type} (into : D → V)
    (ap : AuthorityProvider D A) (fi : FinalizationInfo)
    (c : VerifierCache V A H) (n : Nat) (s t : Nat)
    (h : (c.get_data into ap fi n).1 = .error (.SessionTooOld s t) ∨
         (c.get_data into ap fi n).1 = .error (.SessionInFuture s t)) :
    (c.get_data into ap fi n).2 = c := by
  by_cases h1 : session_of c n < c.lower_bound
  · rw [get_data_too_old into ap fi c n h1]
  · by_cases h2 : upper_bound_of c fi < session_of c n
    · rw [get_data_in_future into ap fi c n h1 h2]
    · exfalso
      cases h3 : map_lookup (session_of c n) (c.try_prune (session_of c n)).cached_data with
      | some d =>
        rw [get_data_hit into ap fi c n d h1 h2 h3] at h
        rcases h with h | h <;> simp at h
      | none =>
        cases h4 : download_data into ap (session_of c n)
            (c.try_prune (session_of c n)).session_info with
        | ok d =>
          rw [get_data_miss_ok into ap fi c n d h1 h2 h3 h4] at h
          rcases h with h | h <;> simp at h
        | error e =>
          rw [get_data_miss_err into ap fi c n e h1 h2 h3 h4] at h
          have hs := download_data_error_shape into ap _ _ e h4
          rcases h with h | h <;> simp at h <;> rcases hs with he | he <;> simp [h] at he

/-- C3: a call to get or get_aura_authorities that returns SessionTooOld or
SessionInFuture leaves the whole cache state — in particular the entries map
and lower_bound — exactly as it was before the call. -/
theorem c3_rejection_purity {D V A H : Type} (into : D → V)
    (c : VerifierCache V A H) (call : CacheCall D A) (s t : Nat)
    (h : call_error into c call = some (.SessionTooOld s t) ∨
         call_error into c call = some (.SessionInFuture s t)) :
    apply_call into c call = c := by
  rw [apply_call_eq]
  refine get_data_bound_error_state into call.provider call.fin c call.number s t ?_
  rcases h with h | h
  · exact Or.inl ((call_error_eq into c call _).mp h)
  · exact Or.inr ((call_error_eq into c call _).mp h)

/-- Witness for C3: a concrete rejected query (session 0 below lower bound
2) leaves the concrete cache unchanged. -/
theorem c3_rejection_purity_witness :
    (call_error (fun d : Nat => d) cacheL (.get apFull ⟨300⟩ 0) =
        some (.SessionTooOld 0 2) ∨
      call_error (fun d : Nat => d) cacheL (.get apFull ⟨300⟩ 0) =
        some (.SessionInFuture 0 2)) ∧
    apply_call (fun d : Nat => d) cacheL (.get apFull ⟨300⟩ 0) = cacheL :=
  ⟨Or.inl (by decide),
    c3_rejection_purity (fun d : Nat => d) cacheL (.get apFull ⟨300⟩ 0) 0 2
      (Or.inl (by decide))⟩

theorem lower_bound_le_get_data {D V A H : Type} (into : D → V)
    (ap : AuthorityProvider D A) (fi : FinalizationInfo)
    (c : VerifierCache V A H) (n : Nat) :
    c.lower_bound ≤ (c.get_data into ap fi n).2.lower_bound := by
  by_cases h1 : session_of c n < c.lower_bound
  · rw [get_data_too_old into ap fi c n h1]
  · by_cases h2 : upper_bound_of c fi < session_of c n
    · rw [get_data_in_future into ap fi c n h1 h2]
    · cases h3 : map_lookup (session_of c n) (c.try_prune (session_of c n)).cached_data with
      | some d =>
        rw [get_data_hit into ap fi c n d h1 h2 h3]
        exact lower_bound_le_try_prune c _
      | none =>
        cases h4 : download_data into ap (session_of c n)
            (c.try_prune (session_of c n)).session_info with
        | ok d =>
          rw [get_data_miss_ok into ap fi c n d h1 h2 h3 h4]
          exact lower_bound_le_try_prune c _
        | error e =>
          rw [get_data_miss_err into ap fi c n e h1 h2 h3 h4]
          exact lower_bound_le_try_prune c _

theorem lower_bound_le_apply_call {D V A H : Type} (into : D → V)
    (c : VerifierCache V A H) (call : CacheCall D A) :
    c.lower_bound ≤ (apply_call into c call).lower_bound := by
  rw [apply_call_eq]
  exact lower_bound_le_get_data into call.provider call.fin c call.number

theorem lower_bound_le_run_calls {D V A H : Type} (into : D → V)
    (calls : List (CacheCall D A)) (c : VerifierCache V A H) :
    c.lower_bound ≤ (run_calls into c calls).lower_bound := by
  induction calls generalizing c with
  | nil => exact Nat.le_refl _
  | cons call rest ih =>
    exact Nat.le_trans (lower_bound_le_apply_call into c call)
      (ih (apply_call into c call))

/-- C6: across any sequence of get and get_aura_authorities calls, with any
arguments and any collaborator answers, lower_bound after each single call
is at least its value before that call, and lower_bound never decreases
across a whole sequence of calls. -/
theorem c6_monotonic_lower_bound {D V A H : Type} (into : D → V)
    (c : VerifierCache V A H) :
    (∀ call : CacheCall D A,
      c.lower_bound ≤ (apply_call into c call).lower_bound) ∧
    (∀ calls : List (CacheCall D A),
      c.lower_bound ≤ (run_calls into c calls).lower_bound) :=
  ⟨fun call => lower_bound_le_apply_call into c call,
   fun calls => lower_bound_le_run_calls into calls c⟩

theorem get_data_state_shape {D V A H : Type} (into : D → V)
    (ap : AuthorityProvider D A) (fi : FinalizationInfo)
    (c : VerifierCache V A H) (n : Nat)
    (h1 : ¬ session_of c n < c.lower_bound)
    (h2 : ¬ upper_bound_of c fi < session_of c n) :
    (c.get_data into ap fi n).2 = c.try_prune (session_of c n) ∨
    (∃ d, download_data into ap (session_of c n)
        (c.try_prune (session_of c n)).session_info = .ok d ∧
      map_lookup (session_of c n) (c.try_prune (session_of c n)).cached_data = none ∧
      (c.get_data into ap fi n).2 =
        { c.try_prune (session_of c n) with
          cached_data :=
            (session_of c n, d) :: (c.try_prune (session_of c n)).cached_data }) := by
  cases h3 : map_lookup (session_of c n) (c.try_prune (session_of c n)).cached_data with
  | some d =>
    left
    rw [get_data_hit into ap fi c n d h1 h2 h3]
  | none =>
    cases h4 : download_data into ap (session_of c n)
        (c.try_prune (session_of c n)).session_info with
    | ok d =>
      right
      exact ⟨d, rfl, rfl, by rw [get_data_miss_ok into ap fi c n d h1 h2 h3 h4]⟩
    | error e =>
      left
      rw [get_data_miss_err into ap fi c n e h1 h2 h3 h4]

theorem get_data_lower_bound_eq {D V A H : Type} (into : D → V)
    (ap : AuthorityProvider D A) (fi : FinalizationInfo)
    (c : VerifierCache V A H) (n : Nat)
    (h1 : ¬ session_of c n < c.lower_bound)
    (h2 : ¬ upper_bound_of c fi < session_of c n) :
    (c.get_data into ap fi n).2.lower_bound =
      (c.try_prune (session_of c n)).lower_bound := by
  rcases get_data_state_shape into ap fi c n h1 h2 with h | ⟨d, _, _, h⟩ <;> rw [h]

/-- C1: for a call to get or get_aura_authorities (both route through
get_data) resolving to a session id within the current bounds: when
session_id is at least lower_bound + window_size, after the call lower_bound
equals session_id - window_size + 1, every previously cached entry keyed
below that value is gone, and every entry keyed at or above it is retained;
otherwise the retention pass is the identity and lower_bound is unchanged by
the call.  window_size is a fixed positive integer per the data model, hence
the hypothesis on cache_size. -/
theorem c1_retention_pass {D V A H : Type} (into : D → V)
    (ap : AuthorityProvider D A) (fi : FinalizationInfo)
    (c : VerifierCache V A H) (n : Nat)
    (hws : 1 ≤ c.cache_size)
    (hlow : c.lower_bound ≤ session_of c n)
    (hup : session_of c n ≤ upper_bound_of c fi) :
    (c.lower_bound + c.cache_size ≤ session_of c n →
      (c.get_data into ap fi n).2.lower_bound =
        session_of c n - c.cache_size + 1 ∧
      (∀ k, k < session_of c n - c.cache_size + 1 →
        map_lookup k (c.get_data into ap fi n).2.cached_data = none) ∧
      (∀ k d, session_of c n - c.cache_size + 1 ≤ k →
        map_lookup k c.cached_data = some d →
        map_lookup k (c.get_data into ap fi n).2.cached_data = some d)) ∧
    (session_of c n < c.lower_bound + c.cache_size →
      c.try_prune (session_of c n) = c ∧
      (c.get_data into ap fi n).2.lower_bound = c.lower_bound) := by
  have h1 : ¬ session_of c n < c.lower_bound := Nat.not_lt.mpr hlow
  have h2 : ¬ upper_bound_of c fi < session_of c n := Nat.not_lt.mpr hup
  constructor
  · intro ha
    have hprune := try_prune_of_ge c (session_of c n) ha
    have hsid : session_of c n - c.cache_size + 1 ≤ session_of c n := by omega
    refine ⟨?_, ?_, ?_⟩
    · rw [get_data_lower_bound_eq into ap fi c n h1 h2, hprune]
    · intro k hk
      have hkprune :
          map_lookup k (c.try_prune (session_of c n)).cached_data = none := by
        rw [hprune]
        simp only [map_lookup_filter_ge]
        rw [if_neg (by omega)]
      rcases get_data_state_shape into ap fi c n h1 h2 with h | ⟨d, _, _, h⟩
      · rw [h, hkprune]
      · rw [h]
        simp only [map_lookup]
        rw [if_neg (by omega), hkprune]
    · intro k d hk hpre
      have hkprune :
          map_lookup k (c.try_prune (session_of c n)).cached_data = some d := by
        rw [hprune]
        simp only [map_lookup_filter_ge]
        rw [if_pos hk, hpre]
      rcases get_data_state_shape into ap fi c n h1 h2 with h | ⟨d2, _, hnone, h⟩
      · rw [h, hkprune]
      · rw [h]
        simp only [map_lookup]
        by_cases hks : session_of c n = k
        · exfalso
          subst hks
          rw [hnone] at hkprune
          cases hkprune
        · rw [if_neg hks, hkprune]
  · intro hb
    have hprune := try_prune_of_lt c (session_of c n) hb
    refine ⟨hprune, ?_⟩
    rw [get_data_lower_bound_eq into ap fi c n h1 h2, hprune]

/-- Witness for C1: a concrete in-bounds query at session 5 on a window-3
cache with lower bound 0 (the pruning branch applies). -/
theorem c1_retention_pass_witness :
    1 ≤ cacheC.cache_size ∧
    cacheC.lower_bound ≤ session_of cacheC 150 ∧
    session_of cacheC 150 ≤ upper_bound_of cacheC ⟨300⟩ ∧
    ((cacheC.lower_bound + cacheC.cache_size ≤ session_of cacheC 150 →
      (cacheC.get_data (fun d : Nat => d) apFull ⟨300⟩ 150).2.lower_bound =
        session_of cacheC 150 - cacheC.cache_size + 1 ∧
      (∀ k, k < session_of cacheC 150 - cacheC.cache_size + 1 →
        map_lookup k (cacheC.get_data (fun d : Nat => d) apFull ⟨300⟩ 150).2.cached_data = none) ∧
      (∀ k d, session_of cacheC 150 - cacheC.cache_size + 1 ≤ k →
        map_lookup k cacheC.cached_data = some d →
        map_lookup k (cacheC.get_data (fun d : Nat => d) apFull ⟨300⟩ 150).2.cached_data = some d)) ∧
    (session_of cacheC 150 < cacheC.lower_bound + cacheC.cache_size →
      cacheC.try_prune (session_of cacheC 150) = cacheC ∧
      (cacheC.get_data (fun d : Nat => d) apFull ⟨300⟩ 150).2.lower_bound =
        cacheC.lower_bound)) :=
  ⟨by decide, by decide, by decide,
    c1_retention_pass (fun d : Nat => d) apFull ⟨300⟩ cacheC 150
      (by decide) (by decide) (by decide)⟩

theorem download_data_never_bound_error {D V A : Type} (into : D → V)
    (ap : AuthorityProvider D A) (sid : Nat) (si : SessionBoundaryInfo)
    (s t : Nat) :
    download_data into ap sid si ≠ .error (.SessionTooOld s t) ∧
    download_data into ap sid si ≠ .error (.SessionInFuture s t) := by
  constructor <;> intro h <;>
    rcases download_data_error_shape into ap sid si _ h with he | he <;> cases he

theorem get_data_error_char {D V A H : Type} (into : D → V)
    (ap : AuthorityProvider D A) (fi : FinalizationInfo)
    (c : VerifierCache V A H) (n : Nat) (s t : Nat) :
    ((c.get_data into ap fi n).1 = .error (.SessionTooOld s t) ↔
      session_of c n < c.lower_bound ∧ s = session_of c n ∧ t = c.lower_bound) ∧
    ((c.get_data into ap fi n).1 = .error (.SessionInFuture s t) ↔
      ¬ session_of c n < c.lower_bound ∧ upper_bound_of c fi < session_of c n ∧
        s = session_of c n ∧ t = upper_bound_of c fi) := by
  by_cases h1 : session_of c n < c.lower_bound
  · rw [get_data_too_old into ap fi c n h1]
    constructor
    · constructor
      · intro h
        injection h with h
        cases h
        exact ⟨h1, rfl, rfl⟩
      · rintro ⟨-, rfl, rfl⟩
        rfl
    · constructor
      · intro h
        injection h with h
        cases h
      · rintro ⟨h, -⟩
        exact absurd h1 h
  · by_cases h2 : upper_bound_of c fi < session_of c n
    · rw [get_data_in_future into ap fi c n h1 h2]
      constructor
      · constructor
        · intro h
          injection h with h
          cases h
        · rintro ⟨h, -⟩
          exact absurd h h1
      · constructor
        · intro h
          injection h with h
          cases h
          exact ⟨h1, h2, rfl, rfl⟩
        · rintro ⟨-, -, rfl, rfl⟩
          rfl
    · have hshape : ∀ x, (c.get_data into ap fi n).1 = x →
          x ≠ .error (.SessionTooOld s t) ∧ x ≠ .error (.SessionInFuture s t) := by
        intro x hx
        cases h3 : map_lookup (session_of c n) (c.try_prune (session_of c n)).cached_data with
        | some d =>
          rw [get_data_hit into ap fi c n d h1 h2 h3] at hx
          subst hx
          exact ⟨fun h => by simp at h, fun h => by simp at h⟩
        | none =>
          cases h4 : download_data into ap (session_of c n)
              (c.try_prune (session_of c n)).session_info with
          | ok d =>
            rw [get_data_miss_ok into ap fi c n d h1 h2 h3 h4] at hx
            subst hx
            exact ⟨fun h => by simp at h, fun h => by simp at h⟩
          | error e =>
            rw [get_data_miss_err into ap fi c n e h1 h2 h3 h4] at hx
            subst hx
            have := download_data_never_bound_error into ap (session_of c n)
              (c.try_prune (session_of c n)).session_info s t
            rw [h4] at this
            simpa using this
      have hne := hshape _ rfl
      constructor
      · constructor
        · intro h
          exact absurd h hne.1
        · rintro ⟨h, -⟩
          exact absurd h h1
      · constructor
        · intro h
          exact absurd h hne.2
        · rintro ⟨-, h, -⟩
          exact absurd h h2

/-- C2: a call to get or get_aura_authorities fails with
SessionTooOld(session_id, lower_bound) exactly when the resolved session id
is below lower_bound, and otherwise fails with
SessionInFuture(session_id, upper_bound) exactly when the session id exceeds
the upper bound recomputed at that call as
session_id_from_block_num(finalized_number) + 1. -/
theorem c2_bound_checks {D V A H : Type} (into : D → V)
    (ap : AuthorityProvider D A) (fi : FinalizationInfo)
    (c : VerifierCache V A H) (n : Nat) (s t : Nat) :
    ((c.get into ap fi n).1 = .error (.SessionTooOld s t) ↔
      session_of c n < c.lower_bound ∧ s = session_of c n ∧ t = c.lower_bound) ∧
    ((c.get into ap fi n).1 = .error (.SessionInFuture s t) ↔
      ¬ session_of c n < c.lower_bound ∧ upper_bound_of c fi < session_of c n ∧
        s = session_of c n ∧ t = upper_bound_of c fi) ∧
    ((c.get_aura_authorities into ap fi n).1 = .error (.SessionTooOld s t) ↔
      session_of c n < c.lower_bound ∧ s = session_of c n ∧ t = c.lower_bound) ∧
    ((c.get_aura_authorities into ap fi n).1 = .error (.SessionInFuture s t) ↔
      ¬ session_of c n < c.lower_bound ∧ upper_bound_of c fi < session_of c n ∧
        s = session_of c n ∧ t = upper_bound_of c fi) := by
  have h := get_data_error_char into ap fi c n s t
  exact ⟨(get_error_iff into ap fi c n _).trans h.1,
    (get_error_iff into ap fi c n _).trans h.2,
    (aura_error_iff into ap fi c n _).trans h.1,
    (aura_error_iff into ap fi c n _).trans h.2⟩

theorem map_lookup_try_prune_some {V A H : Type} (c : VerifierCache V A H)
    (s k : Nat) (d : CachedData V A)
    (h : map_lookup k (c.try_prune s).cached_data = some d) :
    map_lookup k c.cached_data = some d := by
  unfold VerifierCache.try_prune at h
  split at h
  · dsimp only at h
    rw [map_lookup_filter_ge] at h
    split at h
    · exact h
    · cases h
  · exact h

/-- C4 as written is false (see the counterexample): a call can fail with
UnknownAuthorities or UnknownAuraAuthorities after the retention pass has
already advanced lower_bound and evicted old entries.  Amended claim: any
failing call creates or modifies no entry (every entry present after the
call was present before with the same data), and the state after a failing
call is the pre-state for SessionTooOld and SessionInFuture, and the
pre-state with at most the retention pass applied for UnknownAuthorities and
UnknownAuraAuthorities. -/
theorem c4_failure_state {D V A H : Type} (into : D → V)
    (c : VerifierCache V A H) (call : CacheCall D A) (e : CacheError)
    (h : call_error into c call = some e) :
    (∀ k d, map_lookup k (apply_call into c call).cached_data = some d →
      map_lookup k c.cached_data = some d) ∧
    apply_call into c call =
      (match e with
       | .SessionTooOld _ _ => c
       | .SessionInFuture _ _ => c
       | _ => c.try_prune (session_of c call.number)) := by
  rw [apply_call_eq]
  have herr := (call_error_eq into c call e).mp h
  by_cases h1 : session_of c call.number < c.lower_bound
  · rw [get_data_too_old into call.provider call.fin c call.number h1] at herr ⊢
    simp only at herr
    injection herr with herr
    subst herr
    exact ⟨fun k d hk => hk, rfl⟩
  · by_cases h2 : upper_bound_of c call.fin < session_of c call.number
    · rw [get_data_in_future into call.provider call.fin c call.number h1 h2] at herr ⊢
      simp only at herr
      injection herr with herr
      subst herr
      exact ⟨fun k d hk => hk, rfl⟩
    · cases h3 : map_lookup (session_of c call.number)
          (c.try_prune (session_of c call.number)).cached_data with
      | some d =>
        rw [get_data_hit into call.provider call.fin c call.number d h1 h2 h3] at herr
        simp at herr
      | none =>
        cases h4 : download_data into call.provider (session_of c call.number)
            (c.try_prune (session_of c call.number)).session_info with
        | ok d =>
          rw [get_data_miss_ok into call.provider call.fin c call.number d h1 h2 h3 h4] at herr
          simp at herr
        | error e2 =>
          rw [get_data_miss_err into call.provider call.fin c call.number e2 h1 h2 h3 h4] at herr ⊢
          simp only at herr
          injection herr with herr
          subst herr
          refine ⟨fun k d hk => map_lookup_try_prune_some c _ k d hk, ?_⟩
          rcases download_data_error_shape into call.provider _ _ e2 h4 with he | he <;>
            subst he <;> rfl

/-- C4 counterexample: on a window-3 cache holding session 0 with lower
bound 0, a query resolving to session 5 whose authority data is missing
fails with UnknownAuthorities(5), yet lower_bound has advanced from 0 to 3
and the entry for session 0 has been evicted. -/
theorem c4_counterexample :
    call_error (fun d : Nat => d) cacheC (.get apMissing ⟨300⟩ 150) =
      some (.UnknownAuthorities 5) ∧
    (apply_call (fun d : Nat => d) cacheC (.get apMissing ⟨300⟩ 150)).lower_bound = 3 ∧
    cacheC.lower_bound = 0 ∧
    map_lookup 0 (apply_call (fun d : Nat => d) cacheC
      (.get apMissing ⟨300⟩ 150)).cached_data = none ∧
    map_lookup 0 cacheC.cached_data = some ⟨100, [0]⟩ :=
  ⟨by decide, by decide, by decide, by decide, by decide⟩

/-- Witness for the amended C4 at the same concrete failing call. -/
theorem c4_failure_state_witness :
    call_error (fun d : Nat => d) cacheC (.get apMissing ⟨300⟩ 150) =
      some (.UnknownAuthorities 5) ∧
    ((∀ k d, map_lookup k (apply_call (fun d : Nat => d) cacheC
        (.get apMissing ⟨300⟩ 150)).cached_data = some d →
      map_lookup k cacheC.cached_data = some d) ∧
    apply_call (fun d : Nat => d) cacheC (.get apMissing ⟨300⟩ 150) =
      (match (CacheError.UnknownAuthorities 5) with
       | .SessionTooOld _ _ => cacheC
       | .SessionInFuture _ _ => cacheC
       | _ => cacheC.try_prune (session_of cacheC
          (CacheCall.number (D := Nat) (A := Nat) (.get apMissing ⟨300⟩ 150))))) :=
  ⟨by decide,
    c4_failure_state (fun d : Nat => d) cacheC (.get apMissing ⟨300⟩ 150)
      (.UnknownAuthorities 5) (by decide)⟩

theorem get_data_cache_size_eq {D V A H : Type} (into : D → V)
    (ap : AuthorityProvider D A) (fi : FinalizationInfo)
    (c : VerifierCache V A H) (n : Nat) :
    (c.get_data into ap fi n).2.cache_size = c.cache_size := by
  by_cases h1 : session_of c n < c.lower_bound
  · rw [get_data_too_old into ap fi c n h1]
  · by_cases h2 : upper_bound_of c fi < session_of c n
    · rw [get_data_in_future into ap fi c n h1 h2]
    · rcases get_data_state_shape into ap fi c n h1 h2 with h | ⟨d, _, _, h⟩ <;>
        rw [h] <;> exact try_prune_cache_size c _

theorem inv_try_prune {V A H : Type} (c : VerifierCache V A H) (s : Nat)
    (hinv : ∀ p ∈ c.cached_data,
      c.lower_bound ≤ p.1 ∧ p.1 ≤ c.lower_bound + c.cache_size - 1) :
    ∀ p ∈ (c.try_prune s).cached_data,
      (c.try_prune s).lower_bound ≤ p.1 ∧
      p.1 ≤ (c.try_prune s).lower_bound + c.cache_size - 1 := by
  unfold VerifierCache.try_prune
  split
  · intro p hp
    dsimp only at hp ⊢
    rw [List.mem_filter] at hp
    rcases hp with ⟨hmem, hpred⟩
    have := hinv p hmem
    have hdec : s - c.cache_size + 1 ≤ p.1 := by
      have := of_decide_eq_true hpred
      exact this
    omega
  · exact hinv

theorem sid_window_try_prune {V A H : Type} (c : VerifierCache V A H) (s : Nat)
    (hws : 1 ≤ c.cache_size) (hlb : c.lower_bound ≤ s) :
    (c.try_prune s).lower_bound ≤ s ∧
    s ≤ (c.try_prune s).lower_bound + c.cache_size - 1 := by
  unfold VerifierCache.try_prune
  split
  · dsimp only
    omega
  · omega

theorem inv_step {D V A H : Type} (into : D → V)
    (ap : AuthorityProvider D A) (fi : FinalizationInfo)
    (c : VerifierCache V A H) (n : Nat)
    (hws : 1 ≤ c.cache_size)
    (hinv : ∀ p ∈ c.cached_data,
      c.lower_bound ≤ p.1 ∧ p.1 ≤ c.lower_bound + c.cache_size - 1) :
    ∀ p ∈ (c.get_data into ap fi n).2.cached_data,
      (c.get_data into ap fi n).2.lower_bound ≤ p.1 ∧
      p.1 ≤ (c.get_data into ap fi n).2.lower_bound + c.cache_size - 1 := by
  by_cases h1 : session_of c n < c.lower_bound
  · rw [get_data_too_old into ap fi c n h1]
    exact hinv
  · by_cases h2 : upper_bound_of c fi < session_of c n
    · rw [get_data_in_future into ap fi c n h1 h2]
      exact hinv
    · have hwin := sid_window_try_prune c (session_of c n) hws (Nat.not_lt.mp h1)
      rcases get_data_state_shape into ap fi c n h1 h2 with h | ⟨d, _, _, h⟩
      · rw [h]
        exact inv_try_prune c (session_of c n) hinv
      · rw [h]
        intro p hp
        dsimp only at hp ⊢
        rcases List.mem_cons.mp hp with hps | hpm
        · subst hps
          exact hwin
        · exact inv_try_prune c (session_of c n) hinv p hpm

theorem apply_call_cache_size {D V A H : Type} (into : D → V)
    (c : VerifierCache V A H) (call : CacheCall D A) :
    (apply_call into c call).cache_size = c.cache_size := by
  rw [apply_call_eq]
  exact get_data_cache_size_eq into call.provider call.fin c call.number

theorem run_calls_cache_size {D V A H : Type} (into : D → V)
    (calls : List (CacheCall D A)) (c : VerifierCache V A H) :
    (run_calls into c calls).cache_size = c.cache_size := by
  induction calls generalizing c with
  | nil => rfl
  | cons call rest ih =>
    exact (ih (apply_call into c call)).trans (apply_call_cache_size into c call)

theorem inv_run {D V A H : Type} (into : D → V)
    (calls : List (CacheCall D A)) (c : VerifierCache V A H)
    (hws : 1 ≤ c.cache_size)
    (hinv : ∀ p ∈ c.cached_data,
      c.lower_bound ≤ p.1 ∧ p.1 ≤ c.lower_bound + c.cache_size - 1) :
    ∀ p ∈ (run_calls into c calls).cached_data,
      (run_calls into c calls).lower_bound ≤ p.1 ∧
      p.1 ≤ (run_calls into c calls).lower_bound + c.cache_size - 1 := by
  induction calls generalizing c with
  | nil => exact hinv
  | cons call rest ih =>
    have hstep : ∀ p ∈ (apply_call into c call).cached_data,
        (apply_call into c call).lower_bound ≤ p.1 ∧
        p.1 ≤ (apply_call into c call).lower_bound + (apply_call into c call).cache_size - 1 := by
      rw [apply_call_cache_size into c call, apply_call_eq]
      exact inv_step into call.provider call.fin c call.number hws hinv
    have hws2 : 1 ≤ (apply_call into c call).cache_size := by
      rw [apply_call_cache_size into c call]
      exact hws
    have := ih (apply_call into c call) hws2 hstep
    rw [apply_call_cache_size into c call] at this
    exact this

/-- C5: starting from a newly constructed cache with window_size at least 1
(entries empty, lower_bound 0), after any sequence of get and
get_aura_authorities calls every key in the entries table lies in the
interval from lower_bound to lower_bound + window_size - 1. -/
theorem c5_window_invariant {D V A H : Type} (into : D → V)
    (si : SessionBoundaryInfo) (ws : Nat) (gh : H)
    (hws : 1 ≤ ws) (calls : List (CacheCall D A)) :
    ∀ p ∈ (run_calls into (VerifierCache.new si ws gh : VerifierCache V A H)
        calls).cached_data,
      (run_calls into (VerifierCache.new si ws gh : VerifierCache V A H)
        calls).lower_bound ≤ p.1 ∧
      p.1 ≤ (run_calls into (VerifierCache.new si ws gh : VerifierCache V A H)
        calls).lower_bound + ws - 1 := by
  exact inv_run into calls (VerifierCache.new si ws gh) hws (by intro p hp; cases hp)

/-- Witness for C5: window size 3, one concrete in-bounds query. -/
theorem c5_window_invariant_witness :
    1 ≤ 3 ∧
    ∀ p ∈ (run_calls (fun d : Nat => d)
        (VerifierCache.new infoW 3 () : VerifierCache Nat Nat Unit)
        [.get apFull ⟨300⟩ 150]).cached_data,
      (run_calls (fun d : Nat => d)
        (VerifierCache.new infoW 3 () : VerifierCache Nat Nat Unit)
        [.get apFull ⟨300⟩ 150]).lower_bound ≤ p.1 ∧
      p.1 ≤ (run_calls (fun d : Nat => d)
        (VerifierCache.new infoW 3 () : VerifierCache Nat Nat Unit)
        [.get apFull ⟨300⟩ 150]).lower_bound + 3 - 1 :=
  ⟨by decide,
    c5_window_invariant (fun d : Nat => d) infoW 3 () (by decide)
      [.get apFull ⟨300⟩ 150]⟩

/-- C7: the download step builds the session-0 entry from authority_data(0)
and aura_authorities(0) and the session-N entry (N > 0) from
next_authority_data and next_aura_authorities queried at the first block of
session N - 1; missing authority data yields UnknownAuthorities(N) and
missing Aura data (with authority data present) yields
UnknownAuraAuthorities(N). -/
theorem c7_download_step {D V A : Type} (into : D → V)
    (ap : AuthorityProvider D A) (si : SessionBoundaryInfo) :
    ((ap.authority_data 0 = none →
        download_data into ap 0 si = .error (.UnknownAuthorities 0)) ∧
     (∀ ad, ap.authority_data 0 = some ad → ap.aura_authorities 0 = none →
        download_data into ap 0 si = .error (.UnknownAuraAuthorities 0)) ∧
     (∀ ad aa, ap.authority_data 0 = some ad → ap.aura_authorities 0 = some aa →
        download_data into ap 0 si = .ok ⟨into ad, aa⟩)) ∧
    (∀ N, 0 < N →
      ((ap.next_authority_data (si.first_block_of_session (N - 1)) = none →
          download_data into ap N si = .error (.UnknownAuthorities N)) ∧
       (∀ ad, ap.next_authority_data (si.first_block_of_session (N - 1)) = some ad →
          ap.next_aura_authorities (si.first_block_of_session (N - 1)) = none →
          download_data into ap N si = .error (.UnknownAuraAuthorities N)) ∧
       (∀ ad aa, ap.next_authority_data (si.first_block_of_session (N - 1)) = some ad →
          ap.next_aura_authorities (si.first_block_of_session (N - 1)) = some aa →
          download_data into ap N si = .ok ⟨into ad, aa⟩))) := by
  constructor
  · refine ⟨?_, ?_, ?_⟩
    · intro h
      simp [download_data, h]
    · intro ad h1 h2
      simp [download_data, h1, h2]
    · intro ad aa h1 h2
      simp [download_data, h1, h2]
  · intro N hN
    obtain ⟨m, rfl⟩ : ∃ m, N = m + 1 := ⟨N - 1, by omega⟩
    simp only [Nat.add_sub_cancel]
    refine ⟨?_, ?_, ?_⟩
    · intro h
      simp [download_data, h]
    · intro ad h1 h2
      simp [download_data, h1, h2]
    · intro ad aa h1 h2
      simp [download_data, h1, h2]

theorem session_of_try_prune {V A H : Type} (c : VerifierCache V A H)
    (s n : Nat) : session_of (c.try_prune s) n = session_of c n := by
  unfold session_of
  rw [try_prune_session_info]

theorem upper_bound_of_try_prune {V A H : Type} (c : VerifierCache V A H)
    (s : Nat) (fi : FinalizationInfo) :
    upper_bound_of (c.try_prune s) fi = upper_bound_of c fi := by
  unfold upper_bound_of
  rw [try_prune_session_info]

theorem get_fst_ok {D V A H : Type} (into : D → V) (ap : AuthorityProvider D A)
    (fi : FinalizationInfo) (c : VerifierCache V A H) (n : Nat)
    (d : CachedData V A) (h : (c.get_data into ap fi n).1 = .ok d) :
    (c.get into ap fi n).1 = .ok d.session_verifier := by
  unfold VerifierCache.get
  rcases hgd : c.get_data into ap fi n with ⟨r, c1⟩
  rw [hgd] at h
  simp at h
  subst h
  rfl

theorem aura_fst_ok {D V A H : Type} (into : D → V) (ap : AuthorityProvider D A)
    (fi : FinalizationInfo) (c : VerifierCache V A H) (n : Nat)
    (d : CachedData V A) (h : (c.get_data into ap fi n).1 = .ok d) :
    (c.get_aura_authorities into ap fi n).1 = .ok d.aura_authorities := by
  unfold VerifierCache.get_aura_authorities
  rcases hgd : c.get_data into ap fi n with ⟨r, c1⟩
  rw [hgd] at h
  simp at h
  subst h
  rfl

theorem call_error_of_get_data_ok {D V A H : Type} (into : D → V)
    (c : VerifierCache V A H) (call : CacheCall D A) (d : CachedData V A)
    (h : (c.get_data into call.provider call.fin call.number).1 = .ok d) :
    call_error into c call = none := by
  cases call with
  | get ap fi n =>
    simp only [CacheCall.provider, CacheCall.fin, CacheCall.number] at h
    simp only [call_error]
    rw [get_fst_ok into ap fi c n d h]
  | get_aura_authorities ap fi n =>
    simp only [CacheCall.provider, CacheCall.fin, CacheCall.number] at h
    simp only [call_error]
    rw [aura_fst_ok into ap fi c n d h]

theorem c8_core {D V A H : Type} (into : D → V) (ap : AuthorityProvider D A)
    (fi : FinalizationInfo) (c : VerifierCache V A H) (n s : Nat)
    (h : (c.get_data into ap fi n).1 = .error (.UnknownAuthorities s) ∨
         (c.get_data into ap fi n).1 = .error (.UnknownAuraAuthorities s)) :
    session_of c n = s ∧
    (c.get_data into ap fi n).2 = c.try_prune (session_of c n) ∧
    map_lookup (session_of c n) (c.get_data into ap fi n).2.cached_data = none ∧
    ¬ session_of c n < c.lower_bound ∧
    session_of c n ≤ upper_bound_of c fi := by
  by_cases h1 : session_of c n < c.lower_bound
  · rw [get_data_too_old into ap fi c n h1] at h
    rcases h with h | h <;> simp at h
  · by_cases h2 : upper_bound_of c fi < session_of c n
    · rw [get_data_in_future into ap fi c n h1 h2] at h
      rcases h with h | h <;> simp at h
    · cases h3 : map_lookup (session_of c n)
          (c.try_prune (session_of c n)).cached_data with
      | some d =>
        rw [get_data_hit into ap fi c n d h1 h2 h3] at h
        rcases h with h | h <;> simp at h
      | none =>
        cases h4 : download_data into ap (session_of c n)
            (c.try_prune (session_of c n)).session_info with
        | ok d =>
          rw [get_data_miss_ok into ap fi c n d h1 h2 h3 h4] at h
          rcases h with h | h <;> simp at h
        | error e =>
          have hstate := get_data_miss_err into ap fi c n e h1 h2 h3 h4
          rw [hstate] at h
          have hs := download_data_error_shape into ap _ _ e h4
          have hsid : session_of c n = s := by
            rcases h with h | h <;> simp at h <;> subst h <;> rcases hs with he | he
            · injection he with he
              exact he.symm
            · cases he
            · cases he
            · injection he with he
              exact he.symm
          refine ⟨hsid, by rw [hstate], ?_, h1, Nat.not_lt.mp h2⟩
          rw [hstate]
          exact h3

theorem get_data_insert {D V A H : Type} (into : D → V)
    (ap : AuthorityProvider D A) (fi : FinalizationInfo)
    (c : VerifierCache V A H) (n : Nat) (d : CachedData V A)
    (hlb : c.lower_bound ≤ session_of c n)
    (hnoprune : session_of c n < c.lower_bound + c.cache_size)
    (hub : session_of c n ≤ upper_bound_of c fi)
    (hlk : map_lookup (session_of c n) c.cached_data = none)
    (hdl : download_data into ap (session_of c n) c.session_info = .ok d) :
    c.get_data into ap fi n =
      (.ok d, { c with cached_data := (session_of c n, d) :: c.cached_data }) := by
  have h1 : ¬ session_of c n < c.lower_bound := Nat.not_lt.mpr hlb
  have h2 : ¬ upper_bound_of c fi < session_of c n := Nat.not_lt.mpr hub
  have hprune : c.try_prune (session_of c n) = c := try_prune_of_lt c _ hnoprune
  have h3 : map_lookup (session_of c n)
      (c.try_prune (session_of c n)).cached_data = none := by
    rw [hprune]
    exact hlk
  have h4 : download_data into ap (session_of c n)
      (c.try_prune (session_of c n)).session_info = .ok d := by
    rw [hprune]
    exact hdl
  rw [get_data_miss_ok into ap fi c n d h1 h2 h3 h4, hprune]

/-- C8: a call failing with UnknownAuthorities(S) or UnknownAuraAuthorities(S)
leaves no entry for S in the cache, and a later call resolving to S — still
within the bounds current at that later call — whose download from the then
current authority source succeeds, returns the downloaded data and caches
the entry.  window_size is a fixed positive integer per the data model,
hence the hypothesis on cache_size. -/
theorem c8_no_failure_caching {D V A H : Type} (into : D → V)
    (c : VerifierCache V A H) (call : CacheCall D A) (s : Nat)
    (hws : 1 ≤ c.cache_size)
    (h : call_error into c call = some (.UnknownAuthorities s) ∨
         call_error into c call = some (.UnknownAuraAuthorities s)) :
    map_lookup s (apply_call into c call).cached_data = none ∧
    ∀ (call2 : CacheCall D A) (d : CachedData V A),
      session_of c call2.number = s →
      s ≤ upper_bound_of c call2.fin →
      download_data into call2.provider s c.session_info = .ok d →
      call_error into (apply_call into c call) call2 = none ∧
      apply_call into (apply_call into c call) call2 =
        { apply_call into c call with
          cached_data := (s, d) :: (apply_call into c call).cached_data } ∧
      map_lookup s
        (apply_call into (apply_call into c call) call2).cached_data = some d := by
  have h' : (c.get_data into call.provider call.fin call.number).1 =
        .error (.UnknownAuthorities s) ∨
      (c.get_data into call.provider call.fin call.number).1 =
        .error (.UnknownAuraAuthorities s) := by
    rcases h with h | h
    · exact Or.inl ((call_error_eq into c call _).mp h)
    · exact Or.inr ((call_error_eq into c call _).mp h)
  obtain ⟨hsid, hstate, hnone, hlb1, hub1⟩ :=
    c8_core into call.provider call.fin c call.number s h'
  subst hsid
  rw [hstate] at hnone
  have hA : apply_call into c call = c.try_prune (session_of c call.number) := by
    rw [apply_call_eq]
    exact hstate
  rw [hA]
  have hwin := sid_window_try_prune c (session_of c call.number) hws
    (Nat.not_lt.mp hlb1)
  refine ⟨hnone, ?_⟩
  intro call2 d hs2 hu2 hdl
  have hsess : session_of (c.try_prune (session_of c call.number)) call2.number =
      session_of c call2.number :=
    session_of_try_prune c (session_of c call.number) call2.number
  have hins := get_data_insert into call2.provider call2.fin
    (c.try_prune (session_of c call.number)) call2.number d
    (by rw [hsess, hs2]; exact hwin.1)
    (by rw [hsess, hs2, try_prune_cache_size]
        have := hwin.2
        omega)
    (by rw [hsess, hs2, upper_bound_of_try_prune]; exact hu2)
    (by rw [hsess, hs2]; exact hnone)
    (by rw [hsess, hs2, try_prune_session_info]; exact hdl)
  rw [hsess, hs2] at hins
  refine ⟨?_, ?_, ?_⟩
  · exact call_error_of_get_data_ok into _ call2 d (by rw [hins])
  · rw [apply_call_eq, hins]
  · rw [apply_call_eq, hins]
    simp [map_lookup]

/-- Witness for C8: querying session 1 fails with UnknownAuthorities(1) on a
provider lacking next-session data; once the provider has the data, the same
query succeeds and the entry is cached. -/
theorem c8_no_failure_caching_witness :
    1 ≤ cacheW.cache_size ∧
    (call_error (fun d : Nat => d) cacheW (.get apMissing ⟨30⟩ 35) =
        some (.UnknownAuthorities 1) ∨
      call_error (fun d : Nat => d) cacheW (.get apMissing ⟨30⟩ 35) =
        some (.UnknownAuraAuthorities 1)) ∧
    (map_lookup 1 (apply_call (fun d : Nat => d) cacheW
        (.get apMissing ⟨30⟩ 35)).cached_data = none ∧
      ∀ (call2 : CacheCall Nat Nat) (d : CachedData Nat Nat),
        session_of cacheW call2.number = 1 →
        1 ≤ upper_bound_of cacheW call2.fin →
        download_data (fun d : Nat => d) call2.provider 1 cacheW.session_info = .ok d →
        call_error (fun d : Nat => d) (apply_call (fun d : Nat => d) cacheW
          (.get apMissing ⟨30⟩ 35)) call2 = none ∧
        apply_call (fun d : Nat => d) (apply_call (fun d : Nat => d) cacheW
          (.get apMissing ⟨30⟩ 35)) call2 =
          { apply_call (fun d : Nat => d) cacheW (.get apMissing ⟨30⟩ 35) with
            cached_data := (1, d) :: (apply_call (fun d : Nat => d) cacheW
              (.get apMissing ⟨30⟩ 35)).cached_data } ∧
        map_lookup 1 (apply_call (fun d : Nat => d)
          (apply_call (fun d : Nat => d) cacheW (.get apMissing ⟨30⟩ 35))
            call2).cached_data = some d) :=
  ⟨by decide, Or.inl (by decide),
    c8_no_failure_caching (fun d : Nat => d) cacheW (.get apMissing ⟨30⟩ 35) 1
      (by decide) (Or.inl (by decide))⟩

theorem get_data_ok_inversion {D V A H : Type} (into : D → V)
    (ap : AuthorityProvider D A) (fi : FinalizationInfo)
    (c : VerifierCache V A H) (n : Nat) (d : CachedData V A)
    (h : (c.get_data into ap fi n).1 = .ok d) :
    ¬ session_of c n < c.lower_bound ∧
    session_of c n ≤ upper_bound_of c fi ∧
    map_lookup (session_of c n) (c.get_data into ap fi n).2.cached_data = some d ∧
    (c.get_data into ap fi n).2.lower_bound =
      (c.try_prune (session_of c n)).lower_bound ∧
    (c.get_data into ap fi n).2.session_info = c.session_info ∧
    (c.get_data into ap fi n).2.cache_size = c.cache_size := by
  by_cases h1 : session_of c n < c.lower_bound
  · rw [get_data_too_old into ap fi c n h1] at h
    simp at h
  · by_cases h2 : upper_bound_of c fi < session_of c n
    · rw [get_data_in_future into ap fi c n h1 h2] at h
      simp at h
    · cases h3 : map_lookup (session_of c n)
          (c.try_prune (session_of c n)).cached_data with
      | some d2 =>
        have heq := get_data_hit into ap fi c n d2 h1 h2 h3
        rw [heq] at h
        simp at h
        subst h
        rw [heq]
        exact ⟨h1, Nat.not_lt.mp h2, h3, rfl, try_prune_session_info c _,
          try_prune_cache_size c _⟩
      | none =>
        cases h4 : download_data into ap (session_of c n)
            (c.try_prune (session_of c n)).session_info with
        | ok d2 =>
          have heq := get_data_miss_ok into ap fi c n d2 h1 h2 h3 h4
          rw [heq] at h
          simp at h
          subst h
          rw [heq]
          refine ⟨h1, Nat.not_lt.mp h2, ?_, rfl, try_prune_session_info c _,
            try_prune_cache_size c _⟩
          simp [map_lookup]
        | error e =>
          rw [get_data_miss_err into ap fi c n e h1 h2 h3 h4] at h
          simp at h

theorem get_data_hit_full {D V A H : Type} (into : D → V)
    (ap : AuthorityProvider D A) (fi : FinalizationInfo)
    (c : VerifierCache V A H) (n : Nat) (d : CachedData V A)
    (hlb : c.lower_bound ≤ session_of c n)
    (hnoprune : session_of c n < c.lower_bound + c.cache_size)
    (hub : session_of c n ≤ upper_bound_of c fi)
    (hlk : map_lookup (session_of c n) c.cached_data = some d) :
    c.get_data into ap fi n = (.ok d, c) := by
  have h1 : ¬ session_of c n < c.lower_bound := Nat.not_lt.mpr hlb
  have h2 : ¬ upper_bound_of c fi < session_of c n := Nat.not_lt.mpr hub
  have hprune : c.try_prune (session_of c n) = c := try_prune_of_lt c _ hnoprune
  have h3 : map_lookup (session_of c n)
      (c.try_prune (session_of c n)).cached_data = some d := by
    rw [hprune]
    exact hlk
  rw [get_data_hit into ap fi c n d h1 h2 h3, hprune]

theorem get_of_get_data_eq {D V A H : Type} (into : D → V)
    (ap : AuthorityProvider D A) (fi : FinalizationInfo)
    (c c2 : VerifierCache V A H) (n : Nat) (d : CachedData V A)
    (h : c.get_data into ap fi n = (.ok d, c2)) :
    c.get into ap fi n = (.ok d.session_verifier, c2) := by
  unfold VerifierCache.get
  rw [h]

theorem aura_of_get_data_eq {D V A H : Type} (into : D → V)
    (ap : AuthorityProvider D A) (fi : FinalizationInfo)
    (c c2 : VerifierCache V A H) (n : Nat) (d : CachedData V A)
    (h : c.get_data into ap fi n = (.ok d, c2)) :
    c.get_aura_authorities into ap fi n = (.ok d.aura_authorities, c2) := by
  unfold VerifierCache.get_aura_authorities
  rw [h]

theorem session_of_congr {V A H : Type} (c2 c : VerifierCache V A H) (n : Nat)
    (h : c2.session_info = c.session_info) : session_of c2 n = session_of c n := by
  unfold session_of
  rw [h]

theorem upper_bound_of_congr {V A H : Type} (c2 c : VerifierCache V A H)
    (fi2 fi : FinalizationInfo) (hsi : c2.session_info = c.session_info)
    (hfin : fi2.finalized_number = fi.finalized_number) :
    upper_bound_of c2 fi2 = upper_bound_of c fi := by
  unfold upper_bound_of
  rw [hsi, hfin]

/-- C9: if a call to get_data (hence to get or get_aura_authorities, which
only project its result) succeeds for a block of session S, an immediately
following call with any block number resolving to S — with any authority
provider answers, and the finalized number unchanged — returns the identical
cached data and leaves the state unchanged; the conclusion holds for every
authority provider, so the second call performs no provider lookup.
window_size is a fixed positive integer per the data model, hence the
hypothesis on cache_size. -/
theorem c9_idempotent_hit {D V A H : Type} (into : D → V)
    (ap : AuthorityProvider D A) (fi : FinalizationInfo)
    (c : VerifierCache V A H) (n : Nat) (d : CachedData V A)
    (hws : 1 ≤ c.cache_size)
    (h : (c.get_data into ap fi n).1 = .ok d) :
    ∀ (ap2 : AuthorityProvider D A) (fi2 : FinalizationInfo) (n2 : Nat),
      fi2.finalized_number = fi.finalized_number →
      session_of c n2 = session_of c n →
      (c.get_data into ap fi n).2.get_data into ap2 fi2 n2 =
        (.ok d, (c.get_data into ap fi n).2) ∧
      (c.get_data into ap fi n).2.get into ap2 fi2 n2 =
        (.ok d.session_verifier, (c.get_data into ap fi n).2) ∧
      (c.get_data into ap fi n).2.get_aura_authorities into ap2 fi2 n2 =
        (.ok d.aura_authorities, (c.get_data into ap fi n).2) := by
  obtain ⟨h1, hub1, hlk, hlbeq, hsi, hcs⟩ :=
    get_data_ok_inversion into ap fi c n d h
  intro ap2 fi2 n2 hfin hs2
  have hwin := sid_window_try_prune c (session_of c n) hws (Nat.not_lt.mp h1)
  have hsess : session_of (c.get_data into ap fi n).2 n2 = session_of c n := by
    rw [session_of_congr _ c n2 hsi, hs2]
  have hfull := get_data_hit_full into ap2 fi2 (c.get_data into ap fi n).2 n2 d
    (by rw [hsess, hlbeq]; exact hwin.1)
    (by rw [hsess, hlbeq, hcs]
        have := hwin.2
        omega)
    (by rw [hsess, upper_bound_of_congr _ c fi2 fi hsi hfin]; exact hub1)
    (by rw [hsess]; exact hlk)
  exact ⟨hfull,
    get_of_get_data_eq into ap2 fi2 _ _ n2 d hfull,
    aura_of_get_data_eq into ap2 fi2 _ _ n2 d hfull⟩

/-- Witness for C9 at a concrete successful first call (session 1). -/
theorem c9_idempotent_hit_witness :
    1 ≤ cacheW.cache_size ∧
    (cacheW.get_data (fun d : Nat => d) apFull ⟨60⟩ 35).1 = .ok ⟨200, [1]⟩ ∧
    ∀ (ap2 : AuthorityProvider Nat Nat) (fi2 : FinalizationInfo) (n2 : Nat),
      fi2.finalized_number = (⟨60⟩ : FinalizationInfo).finalized_number →
      session_of cacheW n2 = session_of cacheW 35 →
      (cacheW.get_data (fun d : Nat => d) apFull ⟨60⟩ 35).2.get_data
          (fun d : Nat => d) ap2 fi2 n2 =
        (.ok ⟨200, [1]⟩, (cacheW.get_data (fun d : Nat => d) apFull ⟨60⟩ 35).2) ∧
      (cacheW.get_data (fun d : Nat => d) apFull ⟨60⟩ 35).2.get
          (fun d : Nat => d) ap2 fi2 n2 =
        (.ok 200, (cacheW.get_data (fun d : Nat => d) apFull ⟨60⟩ 35).2) ∧
      (cacheW.get_data (fun d : Nat => d) apFull ⟨60⟩ 35).2.get_aura_authorities
          (fun d : Nat => d) ap2 fi2 n2 =
        (.ok [1], (cacheW.get_data (fun d : Nat => d) apFull ⟨60⟩ 35).2) :=
  ⟨by decide, rfl,
    c9_idempotent_hit (fun d : Nat => d) apFull ⟨60⟩ cacheW 35 ⟨200, [1]⟩
      (by decide) rfl⟩

theorem copy_into_zeroed_length (data : List Nat) (n : Nat)
    (h : data.length ≤ n) : (copy_into_zeroed data n).length = n := by
  simp [copy_into_zeroed]
  omega

/-- C10: for signed-origin calls to disassembled and reassembled, the call
succeeds exactly when creation_time has at most 64 bytes, file_path at most
256 bytes and event_key at most 128 bytes; otherwise it fails with
CreationTimeTooLong, FilePathTooLong or EventKeyTooLong, checked in that
order, leaving the storage map unchanged; on success the sender entry
becomes the FSEvent with the inputs right-padded with zero bytes to lengths
64, 256 and 128, overwriting any previous entry for that sender. -/
theorem c10_pallet_calls {Acc : Type} [DecidableEq Acc]
    (store : Acc → Option FSEvent) (sender : Acc)
    (creation_time file_path event_key : List Nat) :
    ((disassembled store sender creation_time file_path event_key).1 = .ok () ↔
      creation_time.length ≤ 64 ∧ file_path.length ≤ 256 ∧
        event_key.length ≤ 128) ∧
    ((reassembled store sender creation_time file_path event_key).1 =
      (disassembled store sender creation_time file_path event_key).1) ∧
    (64 < creation_time.length →
      (disassembled store sender creation_time file_path event_key).1 =
        .error .CreationTimeTooLong) ∧
    (creation_time.length ≤ 64 → 256 < file_path.length →
      (disassembled store sender creation_time file_path event_key).1 =
        .error .FilePathTooLong) ∧
    (creation_time.length ≤ 64 → file_path.length ≤ 256 →
        128 < event_key.length →
      (disassembled store sender creation_time file_path event_key).1 =
        .error .EventKeyTooLong) ∧
    (∀ e, (disassembled store sender creation_time file_path event_key).1 =
        .error e →
      (disassembled store sender creation_time file_path event_key).2.1 = store ∧
      (reassembled store sender creation_time file_path event_key).2.1 = store) ∧
    (creation_time.length ≤ 64 → file_path.length ≤ 256 →
        event_key.length ≤ 128 →
      (disassembled store sender creation_time file_path event_key).2.1 =
        (fun a => if a = sender then
          some (build_fs_event creation_time file_path event_key)
        else store a) ∧
      (reassembled store sender creation_time file_path event_key).2.1 =
        (fun a => if a = sender then
          some (build_fs_event creation_time file_path event_key)
        else store a) ∧
      (build_fs_event creation_time file_path event_key).creationtime.length = 64 ∧
      (build_fs_event creation_time file_path event_key).filepath.length = 256 ∧
      (build_fs_event creation_time file_path event_key).eventkey.length = 128) := by
  refine ⟨?_, ?_, ?_, ?_, ?_, ?_, ?_⟩
  · by_cases hc : creation_time.length ≤ 64 <;>
      by_cases hf : file_path.length ≤ 256 <;>
      by_cases he : event_key.length ≤ 128 <;>
      simp [disassembled, hc, hf, he]
  · by_cases hc : creation_time.length ≤ 64 <;>
      by_cases hf : file_path.length ≤ 256 <;>
      by_cases he : event_key.length ≤ 128 <;>
      simp [disassembled, reassembled, hc, hf, he]
  · intro h64
    have hc : ¬ creation_time.length ≤ 64 := by omega
    simp [disassembled, hc]
  · intro hc h256
    have hf : ¬ file_path.length ≤ 256 := by omega
    simp [disassembled, hc, hf]
  · intro hc hf h128
    have he : ¬ event_key.length ≤ 128 := by omega
    simp [disassembled, hc, hf, he]
  · intro e herr
    by_cases hc : creation_time.length ≤ 64 <;>
      by_cases hf : file_path.length ≤ 256 <;>
      by_cases he : event_key.length ≤ 128 <;>
      simp [disassembled, reassembled, hc, hf, he] at herr ⊢
  · intro hc hf he
    refine ⟨?_, ?_, copy_into_zeroed_length _ _ hc,
      copy_into_zeroed_length _ _ hf, copy_into_zeroed_length _ _ he⟩
    · simp [disassembled, hc, hf, he]
    · simp [reassembled, hc, hf, he]
